import Mathlib

/-!
Shallow embedding of the appointment-scheduling core of the Doctor-Booking
backend (src/unnamed/part_005: `appointment.service`, and the appointment
controller / validation layer), together with theorems settling the frozen
claims about it.

Modelling conventions:
* A JavaScript `Date` that parsed successfully is a `DateMs : Int`
  (milliseconds since the epoch); `new Date(x)` applied to an input that may
  fail to parse is an `Option DateMs` (`none` = `NaN` / Invalid Date).
* The Mongo collection is a `Store`: the list of documents in natural
  (insertion) order, plus the next generated id.  `findOne` is `List.find?`
  over that order, `Appointment.create` appends, `findByIdAndUpdate`
  rewrites the document with the matching id and returns the updated
  document (the code always passes `new: true`).
* `Appointment.find(query).sort(\x7bstartTime: 1\x7d)` is `List.filter`
  followed by `List.mergeSort` on `startTime`.
* Thrown `ValidationError` / `ConflictError` become the `Except` error
  branch, carrying the exact message string from the source; a service that
  returns `Document | null` returns an `Option`.
* Each service takes and returns the store explicitly; on the source's
  `throw` paths no store write has happened yet, so the input store is
  returned unchanged.
-/

namespace DoctorBooking

/-- Milliseconds since the epoch: the value of a successfully parsed JS `Date`. -/
abbrev DateMs := Int

/-- `AppointmentStatus` from `appointment.model.ts`:
`"scheduled" | "completed" | "cancelled"`. -/
inductive AppointmentStatus where
  | scheduled
  | completed
  | cancelled
deriving DecidableEq, Repr

/-- The wire/storage string of a status (the enum values in the Mongoose schema). -/
def statusToString : AppointmentStatus → String
  | .scheduled => "scheduled"
  | .completed => "completed"
  | .cancelled => "cancelled"

/-- An appointment document as stored (`AppointmentDocument` without the
store-maintained bookkeeping fields, which no claim mentions). -/
structure Appointment where
  id : Nat
  patientId : String
  doctorId : String
  startTime : DateMs
  endTime : DateMs
  reason : Option String := none
  notes : Option String := none
  status : AppointmentStatus := .scheduled
deriving DecidableEq, Repr

/-- The Mongo `appointments` collection: documents in insertion order, plus
the next id the store will generate. -/
structure Store where
  appointments : List Appointment := []
  nextId : Nat := 0
deriving DecidableEq, Repr

/-- The empty store. -/
def emptyStore : Store := {}

/-- Errors thrown by the services (`http.errors`): the two classes the
scheduler core uses, with the message passed at the throw site. -/
inductive SchedulerError where
  | validationError (msg : String)
  | conflictError (msg : String)
deriving DecidableEq, Repr

instance {ε α : Type} [DecidableEq ε] [DecidableEq α] : DecidableEq (Except ε α) :=
  fun x y =>
    match x, y with
    | .ok a, .ok b =>
      if h : a = b then .isTrue (by rw [h]) else .isFalse (fun heq => h (Except.ok.inj heq))
    | .error a, .error b =>
      if h : a = b then .isTrue (by rw [h]) else .isFalse (fun heq => h (Except.error.inj heq))
    | .ok _, .error _ => .isFalse (fun heq => Except.noConfusion heq)
    | .error _, .ok _ => .isFalse (fun heq => Except.noConfusion heq)

/-! ## createAppointmentService -/

/-- `AppointmentCreateInput` from `appointment.service`.  `startTime` /
`endTime` hold the result of `new Date(input.startTime)` etc.: `none` when
the value does not parse (`NaN`).  Note the input has no `status` field —
neither the service input type nor `createAppointmentSchema` admits one. -/
structure AppointmentCreateInput where
  patientId : String
  doctorId : String
  startTime : Option DateMs
  endTime : Option DateMs
  reason : Option String := none
  notes : Option String := none

/-- The conflict predicate of the `findOne` query in `createAppointmentService`:
`\x7bdoctorId, startTime: \x7b$lt: end\x7d, endTime: \x7b$gt: start\x7d, status: \x7b$ne: "cancelled"\x7d\x7d`. -/
def overlapsActive (doctorId : String) (start «end» : DateMs) (a : Appointment) : Bool :=
  a.doctorId == doctorId && a.startTime < «end» && a.endTime > start
    && a.status != .cancelled

/-- The store read of the conflict check: does `findOne` find a matching document? -/
def conflictExists (s : Store) (doctorId : String) (start «end» : DateMs) : Bool :=
  (s.appointments.find? (overlapsActive doctorId start «end»)).isSome

/-- The document built and persisted by `Appointment.create` in
`createAppointmentService` (status hard-coded to `"scheduled"`). -/
def newAppointment (s : Store) (input : AppointmentCreateInput)
    (start «end» : DateMs) : Appointment :=
  { id := s.nextId
    patientId := input.patientId
    doctorId := input.doctorId
    startTime := start
    endTime := «end»
    reason := input.reason
    notes := input.notes
    status := .scheduled }

/-- The store write of `Appointment.create`: append the new document,
advance the generated id. -/
def insertAppointment (s : Store) (a : Appointment) : Store :=
  { appointments := s.appointments ++ [a], nextId := s.nextId + 1 }

/-- `createAppointmentService`: NaN check on both dates, `end <= start`
check, `findOne` conflict check, then `Appointment.create`. -/
def createAppointmentService (s : Store) (input : AppointmentCreateInput) :
    Except SchedulerError Appointment × Store :=
  match input.startTime, input.endTime with
  | none, _ => (.error (.validationError "Appointment time is invalid."), s)
  | some _, none => (.error (.validationError "Appointment time is invalid."), s)
  | some start, some «end» =>
    if «end» ≤ start then
      (.error (.validationError "Appointment end time must be after start time."), s)
    else if conflictExists s input.doctorId start «end» then
      (.error (.conflictError "Appointment has time conflict."), s)
    else
      let a := newAppointment s input start «end»
      (.ok a, insertAppointment s a)

/-! ## getAppointmentsService -/

/-- `AppointFilter` from `appointment.service`.  String fields are absent or
a string; `from` / `to` are absent (`none`), present but `NaN` after
`new Date` (`some none`), or present and valid (`some (some d)`). -/
structure AppointFilter where
  patientId : Option String := none
  doctorId : Option String := none
  status : Option String := none
  «from» : Option (Option DateMs) := none
  «to» : Option (Option DateMs) := none
deriving DecidableEq, Repr

/-- JS truthiness of an optional string field (`if (filter.patientId)`):
present and not the empty string. -/
def truthyStr : Option String → Bool
  | some s => s != ""
  | none => false

/-- The Mongo query object built by `getAppointmentsService`: optional
equality constraints and an optional `startTime` range. -/
structure AppointmentQuery where
  patientId : Option String := none
  doctorId : Option String := none
  status : Option String := none
  startGte : Option DateMs := none
  startLte : Option DateMs := none
deriving DecidableEq, Repr

/-- Query construction in `getAppointmentsService`: each string field is
added iff truthy; `$gte` / `$lte` are added iff the corresponding bound is
present and parses to a valid date (NaN bounds are silently skipped). -/
def buildQuery (filter : AppointFilter) : AppointmentQuery :=
  { patientId := if truthyStr filter.patientId then filter.patientId else none
    doctorId := if truthyStr filter.doctorId then filter.doctorId else none
    status := if truthyStr filter.status then filter.status else none
    startGte := match filter.«from» with
      | some (some d) => some d
      | _ => none
    startLte := match filter.«to» with
      | some (some d) => some d
      | _ => none }

/-- Mongo matching semantics of the built query against one document
(conjunction of the present constraints; `status` compares the stored
status string). -/
def matchesQuery (q : AppointmentQuery) (a : Appointment) : Bool :=
  (match q.patientId with
    | some p => a.patientId == p
    | none => true)
  && (match q.doctorId with
    | some d => a.doctorId == d
    | none => true)
  && (match q.status with
    | some st => statusToString a.status == st
    | none => true)
  && (match q.startGte with
    | some d => d ≤ a.startTime
    | none => true)
  && (match q.startLte with
    | some d => a.startTime ≤ d
    | none => true)

/-- Comparison used to model `.sort(\x7bstartTime: 1\x7d)`. -/
def leStart (a b : Appointment) : Bool := a.startTime ≤ b.startTime

/-- `getAppointmentsService`: build the query, `find`, sort ascending by
`startTime`. -/
def getAppointmentsService (s : Store) (filter : AppointFilter) : List Appointment :=
  (s.appointments.filter (matchesQuery (buildQuery filter))).mergeSort leStart

/-- `getAppointmentsByIdService`: `findById`. -/
def getAppointmentsByIdService (s : Store) (id : Nat) : Option Appointment :=
  s.appointments.find? (fun a => a.id == id)

/-! ## findIdAndUpdate-based services -/

/-- `findByIdAndUpdate(id, patch, \x7bnew: true\x7d)`: if no document has the
id, return `none` and leave the store alone; otherwise rewrite the matching
document with `f` and return the updated document. -/
def findByIdAndUpdate (s : Store) (id : Nat) (f : Appointment → Appointment) :
    Option Appointment × Store :=
  match s.appointments.find? (fun a => a.id == id) with
  | none => (none, s)
  | some a =>
    (some (f a),
      { s with appointments := s.appointments.map (fun b => if b.id == id then f b else b) })

/-- `AppointmentUpdateInput` from `appointment.service`.  A time field is
absent (`none`), present but unparseable (`some none`), or present and
parsed (`some (some d)`). -/
structure AppointmentUpdateInput where
  startTime : Option (Option DateMs) := none
  endTime : Option (Option DateMs) := none
  reason : Option String := none
  notes : Option String := none
  status : Option AppointmentStatus := none
deriving DecidableEq, Repr

/-- The effect of the `patch` object built by `updateAppointmentService` on
the stored document: each present field overwrites, absent fields are kept.
No interval or overlap validation happens here — the source never compares
the merged `startTime` / `endTime`. -/
def applyPatch (updates : AppointmentUpdateInput) (a : Appointment) : Appointment :=
  { a with
    startTime := match updates.startTime with
      | some (some d) => d
      | _ => a.startTime
    endTime := match updates.endTime with
      | some (some d) => d
      | _ => a.endTime
    reason := match updates.reason with
      | some r => some r
      | none => a.reason
    notes := match updates.notes with
      | some n => some n
      | none => a.notes
    status := match updates.status with
      | some st => st
      | none => a.status }

/-- `updateAppointmentService`: reject a present-but-unparseable start or
end time with `ValidationError`, then `findByIdAndUpdate` with the patch.
An empty patch reaches `findByIdAndUpdate` with an empty update object. -/
def updateAppointmentService (s : Store) (id : Nat) (updates : AppointmentUpdateInput) :
    Except SchedulerError (Option Appointment) × Store :=
  if updates.startTime = some none then
    (.error (.validationError "Invalid appointment start time."), s)
  else if updates.endTime = some none then
    (.error (.validationError "Invalid appointment end time."), s)
  else
    let r := findByIdAndUpdate s id (applyPatch updates)
    (.ok r.1, r.2)

/-- `cancelAppointmentService`: `findByIdAndUpdate(id, \x7bstatus: "cancelled"\x7d)`. -/
def cancelAppointmentService (s : Store) (id : Nat) : Option Appointment × Store :=
  findByIdAndUpdate s id (fun a => { a with status := .cancelled })

/-- `completeAppointmentService`: `findByIdAndUpdate(id, \x7bstatus: "completed"\x7d)`. -/
def completeAppointmentService (s : Store) (id : Nat) : Option Appointment × Store :=
  findByIdAndUpdate s id (fun a => { a with status := .completed })

/-! ## Operation sequences and the no-overlap invariant -/

/-- One scheduler operation, as named by the spec: create, update, cancel,
complete. -/
inductive Op where
  | create (input : AppointmentCreateInput)
  | update (id : Nat) (updates : AppointmentUpdateInput)
  | cancel (id : Nat)
  | complete (id : Nat)

/-- Execute one operation against the store; a thrown error leaves the
store as the service left it (the services return the unchanged store on
their throw paths). -/
def applyOp (s : Store) : Op → Store
  | .create input => (createAppointmentService s input).2
  | .update id updates => (updateAppointmentService s id updates).2
  | .cancel id => (cancelAppointmentService s id).2
  | .complete id => (completeAppointmentService s id).2

/-- Execute a sequence of operations starting from the empty store. -/
def runOps (ops : List Op) : Store := ops.foldl applyOp emptyStore

/-- The spec's defining invariant: for a fixed doctor, no two non-cancelled
appointments with distinct ids have overlapping half-open intervals. -/
def NoOverlap (s : Store) : Prop :=
  ∀ a ∈ s.appointments, ∀ b ∈ s.appointments,
    a.doctorId = b.doctorId → a.status ≠ .cancelled → b.status ≠ .cancelled →
      a.id ≠ b.id → ¬ (a.startTime < b.endTime ∧ b.startTime < a.endTime)

instance (s : Store) : Decidable (NoOverlap s) := by
  unfold NoOverlap; infer_instance

/-- Operations of the restricted alphabet that does preserve the invariant. -/
def Op.isCreateOrCancel : Op → Prop
  | .create _ => True
  | .cancel _ => True
  | _ => False

instance : (op : Op) → Decidable op.isCreateOrCancel := fun op => by
  cases op <;> simp [Op.isCreateOrCancel] <;> infer_instance

/-! ## Upstream validation schema (appointment.validation) -/

/-- The `.refine(Object.keys(data).length > 0)` guard of
`updateAppointmentSchema`: at least one updatable field present. -/
def updateAppointmentSchemaHasField (updates : AppointmentUpdateInput) : Bool :=
  updates.startTime.isSome || updates.endTime.isSome || updates.reason.isSome
    || updates.notes.isSome || updates.status.isSome

/-! ## Claim-side filter predicate (C5)

The claim reads the filter conditions as applying whenever the field is
present; `claimMatches` is that reading, written from the claim's words,
for comparison with the code's `buildQuery` / `matchesQuery`. -/

/-- The filter predicate exactly as claim C5 words it: every present string
field is an exact-match condition, every present valid instant bounds
`startTime`. -/
def claimMatches (filter : AppointFilter) (a : Appointment) : Bool :=
  (match filter.patientId with
    | some p => a.patientId == p
    | none => true)
  && (match filter.doctorId with
    | some d => a.doctorId == d
    | none => true)
  && (match filter.status with
    | some st => statusToString a.status == st
    | none => true)
  && (match filter.«from» with
    | some (some d) => decide (d ≤ a.startTime)
    | _ => true)
  && (match filter.«to» with
    | some (some d) => decide (a.startTime ≤ d)
    | _ => true)

/-- The filter predicate the code actually implements, stated directly over
the filter: string conditions apply only when the field is present and
non-empty (JS truthiness), time bounds only when present and valid. -/
def truthyMatches (filter : AppointFilter) (a : Appointment) : Bool :=
  (if truthyStr filter.patientId then a.patientId == filter.patientId.getD "" else true)
  && (if truthyStr filter.doctorId then a.doctorId == filter.doctorId.getD "" else true)
  && (if truthyStr filter.status then statusToString a.status == filter.status.getD "" else true)
  && (match filter.«from» with
    | some (some d) => decide (d ≤ a.startTime)
    | _ => true)
  && (match filter.«to» with
    | some (some d) => decide (a.startTime ≤ d)
    | _ => true)

/-! ## Concurrency model (C9)

`createAppointmentService` performs exactly two store accesses: the
`findOne` conflict check (a read) and `Appointment.create` (a write), with
no lock or transaction spanning them.  A concurrent execution of two calls
is an interleaving of those four atomic accesses that respects each call's
program order.  `raceBothCheckFirst` is the interleaving
check₁ ; check₂ ; insert₁ ; insert₂ for two already-validated inputs. -/

/-- Interleaved execution of two concurrent creates in which both conflict
checks read the store before either insert is performed.  The inputs are
assumed already past the date-parse and `end <= start` validations (their
times are the given instants); each component of the returned pair is
whether the corresponding call succeeded. -/
def raceBothCheckFirst (s : Store) (i1 i2 : AppointmentCreateInput)
    (st1 en1 st2 en2 : DateMs) : (Bool × Bool) × Store :=
  let c1 := conflictExists s i1.doctorId st1 en1
  let c2 := conflictExists s i2.doctorId st2 en2
  let s1 := if c1 then s else insertAppointment s (newAppointment s i1 st1 en1)
  let s2 := if c2 then s1 else insertAppointment s1 (newAppointment s1 i2 st2 en2)
  ((!c1, !c2), s2)

/-! ## HTTP list handler (C10) -/

/-- An incoming HTTP request as the Express handler sees it: the bound path
parameters and the query-string parameters, each a key/value map. -/
structure HttpRequest where
  params : List (String × String) := []
  query : List (String × String) := []

/-- Property lookup on a request object map. -/
def lookupField (obj : List (String × String)) (k : String) : Option String :=
  (obj.find? (fun kv => kv.1 == k)).map (·.2)

/-- The result of a successful `getAppointmentQuerySchema.safeParse`:
trimmed non-empty ids, validated status string, coerced dates. -/
structure GetAppointmentQueryParsed where
  patientId : Option String := none
  doctorId : Option String := none
  status : Option String := none
  «from» : Option DateMs := none
  «to» : Option DateMs := none
deriving DecidableEq, Repr

/-- `getAppointmentQuerySchema.safeParse` over a request field map, with the
platform date parser passed in: every field optional; present ids are
trimmed and must be non-empty; a present status must be one of the three
enum strings; present `from` / `to` must coerce to valid dates. -/
def parseGetAppointmentQuery (parseDate : String → Option DateMs)
    (obj : List (String × String)) : Option GetAppointmentQueryParsed := do
  let patientId ← match lookupField obj "patientId" with
    | none => some none
    | some v => let t := v.trim; if t = "" then none else some (some t)
  let doctorId ← match lookupField obj "doctorId" with
    | none => some none
    | some v => let t := v.trim; if t = "" then none else some (some t)
  let status ← match lookupField obj "status" with
    | none => some none
    | some v =>
      if v = "scheduled" ∨ v = "completed" ∨ v = "cancelled" then some (some v) else none
  let «from» ← match lookupField obj "from" with
    | none => some none
    | some v => match parseDate v with
      | some d => some (some d)
      | none => none
  let «to» ← match lookupField obj "to" with
    | none => some none
    | some v => match parseDate v with
      | some d => some (some d)
      | none => none
  pure { patientId, doctorId, status, «from», «to» }

/-- `getAppointmentsController`: parses `req.params` — not `req.query` —
against the query schema, builds the service filter from the truthy parsed
fields, and responds with the count and the list.  A failed parse throws
`ValidationError`. -/
def getAppointmentsController (parseDate : String → Option DateMs)
    (s : Store) (req : HttpRequest) :
    Except SchedulerError (Nat × List Appointment) :=
  match parseGetAppointmentQuery parseDate req.params with
  | none => .error (.validationError "Invalid query parameters")
  | some q =>
    let filter : AppointFilter :=
      { patientId := match q.patientId with
          | some p => if p != "" then some p else none
          | none => none
        doctorId := match q.doctorId with
          | some d => if d != "" then some d else none
          | none => none
        status := match q.status with
          | some st => if st != "" then some st else none
          | none => none
        «from» := match q.«from» with
          | some d => some (some d)
          | none => none
        «to» := match q.«to» with
          | some d => some (some d)
          | none => none }
    let appointments := getAppointmentsService s filter
    .ok (appointments.length, appointments)

/-! ## Helper lemmas -/

/-- The conflict check finds a document iff an active same-doctor
appointment overlaps the half-open interval. -/
theorem conflictExists_iff (s : Store) (d : String) (st en : DateMs) :
    conflictExists s d st en = true ↔
      ∃ a ∈ s.appointments, a.doctorId = d ∧ a.status ≠ .cancelled ∧
        a.startTime < en ∧ st < a.endTime := by
  unfold conflictExists
  rw [List.find?_isSome]
  constructor
  · rintro ⟨a, ha, hp⟩
    refine ⟨a, ha, ?_⟩
    simpa [overlapsActive, and_assoc, and_comm, and_left_comm] using hp
  · rintro ⟨a, ha, h1, h2, h3, h4⟩
    refine ⟨a, ha, ?_⟩
    simp [overlapsActive, h1, h2, h3, h4]

/-- Elimination form of a successful create: the input parsed, the interval
is valid, no conflict was found, and the result is the constructed record
appended to the store. -/
theorem createAppointmentService_ok (s : Store) (i : AppointmentCreateInput)
    (a : Appointment) (h : (createAppointmentService s i).1 = .ok a) :
    ∃ st en, i.startTime = some st ∧ i.endTime = some en ∧ st < en ∧
      conflictExists s i.doctorId st en = false ∧
      a = newAppointment s i st en ∧
      (createAppointmentService s i).2 = insertAppointment s a := by
  cases hst : i.startTime with
  | none => simp [createAppointmentService, hst] at h
  | some st =>
    cases hen : i.endTime with
    | none => simp [createAppointmentService, hst, hen] at h
    | some en =>
      by_cases hle : en ≤ st
      · simp [createAppointmentService, hst, hen, hle] at h
      · by_cases hc : conflictExists s i.doctorId st en
        · simp [createAppointmentService, hst, hen, hle, hc] at h
        · refine ⟨st, en, rfl, rfl, not_le.mp hle, by simpa using hc, ?_, ?_⟩
          · simpa [createAppointmentService, hst, hen, hle, hc] using h.symm
          · have ha : a = newAppointment s i st en := by
              simpa [createAppointmentService, hst, hen, hle, hc] using h.symm
            simp [createAppointmentService, hst, hen, hle, hc, ha]

/-! ## C2 -/

/-- C2: for a create input whose times parse and whose interval is valid,
the call fails with `SchedulingConflict` iff the store holds a same-doctor,
non-cancelled appointment overlapping `[startTime, endTime)` under the
half-open test, and otherwise it succeeds with the new record — so
back-to-back requests succeed and cancelled appointments never block. -/
theorem create_conflict_characterization (s : Store) (i : AppointmentCreateInput)
    (st en : DateMs) (hst : i.startTime = some st) (hen : i.endTime = some en)
    (hlt : st < en) :
    ((createAppointmentService s i).1
        = .error (.conflictError "Appointment has time conflict.")
      ↔ ∃ a ∈ s.appointments, a.doctorId = i.doctorId ∧ a.status ≠ .cancelled ∧
          a.startTime < en ∧ st < a.endTime) ∧
    ((createAppointmentService s i).1 = .ok (newAppointment s i st en)
      ↔ ¬ ∃ a ∈ s.appointments, a.doctorId = i.doctorId ∧ a.status ≠ .cancelled ∧
          a.startTime < en ∧ st < a.endTime) := by
  have hle : ¬ en ≤ st := not_le.mpr hlt
  rw [← conflictExists_iff s i.doctorId st en]
  by_cases hc : conflictExists s i.doctorId st en
  · constructor
    · simp [createAppointmentService, hst, hen, hle, hc]
    · simp [createAppointmentService, hst, hen, hle, hc]
  · constructor
    · simp [createAppointmentService, hst, hen, hle, hc]
    · simp [createAppointmentService, hst, hen, hle, hc]

/-- Witness for C2: with `D1` holding `[0, 30)` (scheduled) and an
overlapping `[15, 45)` slot already cancelled, creating `[30, 60)`
back-to-back succeeds. -/
theorem create_conflict_characterization_witness :
    let a0 : Appointment :=
      { id := 0, patientId := "P1", doctorId := "D1", startTime := 0, endTime := 30 }
    let a1 : Appointment :=
      { id := 1, patientId := "P2", doctorId := "D1", startTime := 15, endTime := 45,
        status := .cancelled }
    let s : Store := { appointments := [a0, a1], nextId := 2 }
    let i : AppointmentCreateInput :=
      { patientId := "P3", doctorId := "D1", startTime := some 30, endTime := some 60 }
    (createAppointmentService s i).1 = .ok (newAppointment s i 30 60) :=
  (create_conflict_characterization _ _ 30 60 rfl rfl (by decide)).2.mpr (by decide)

/-! ## C4 -/

/-- C4: every successful create persists and returns a record with
status `scheduled` (the create input admits no status field, so any
client-supplied status is ignored by construction), carrying exactly the
given `patientId`, `doctorId` and the parsed `startTime` / `endTime`. -/
theorem create_success_fields (s : Store) (i : AppointmentCreateInput)
    (a : Appointment) (h : (createAppointmentService s i).1 = .ok a) :
    a.status = .scheduled ∧ a.patientId = i.patientId ∧ a.doctorId = i.doctorId ∧
      i.startTime = some a.startTime ∧ i.endTime = some a.endTime ∧
      (createAppointmentService s i).2.appointments = s.appointments ++ [a] := by
  obtain ⟨st, en, hst, hen, -, -, ha, hs⟩ := createAppointmentService_ok s i a h
  subst ha
  exact ⟨rfl, rfl, rfl, hst, hen, by rw [hs]; rfl⟩

/-- Witness for C4 at a concrete create on the empty store. -/
theorem create_success_fields_witness :
    let i : AppointmentCreateInput :=
      { patientId := "P1", doctorId := "D1", startTime := some 0, endTime := some 30 }
    let a : Appointment :=
      { id := 0, patientId := "P1", doctorId := "D1", startTime := 0, endTime := 30 }
    a.status = .scheduled ∧ a.patientId = i.patientId ∧ a.doctorId = i.doctorId ∧
      i.startTime = some a.startTime ∧ i.endTime = some a.endTime ∧
      (createAppointmentService emptyStore i).2.appointments
        = emptyStore.appointments ++ [a] :=
  create_success_fields emptyStore _ _ (by decide)

/-! ## C8 -/

/-- C8: whenever create fails — invalid time, invalid interval or
conflict — the store is exactly as it was before the call. -/
theorem create_failure_preserves_store (s : Store) (i : AppointmentCreateInput)
    (e : SchedulerError) (h : (createAppointmentService s i).1 = .error e) :
    (createAppointmentService s i).2 = s := by
  cases hst : i.startTime with
  | none => simp [createAppointmentService, hst]
  | some st =>
    cases hen : i.endTime with
    | none => simp [createAppointmentService, hst, hen]
    | some en =>
      by_cases hle : en ≤ st
      · simp [createAppointmentService, hst, hen, hle]
      · by_cases hc : conflictExists s i.doctorId st en
        · simp [createAppointmentService, hst, hen, hle, hc]
        · simp [createAppointmentService, hst, hen, hle, hc] at h

/-- Witness for C8: the spec's invalid-interval scenario
(`start = 10:00`, `end = 09:00`) leaves the store unchanged. -/
theorem create_failure_preserves_store_witness :
    (createAppointmentService emptyStore
        { patientId := "P1", doctorId := "D1",
          startTime := some 36000000, endTime := some 32400000 }).2 = emptyStore :=
  create_failure_preserves_store emptyStore _
    (.validationError "Appointment end time must be after start time.") (by decide)

/-! ## C3 -/

/-- Counterexample to C3: update never compares the merged interval.
Patching the stored `[0, 30)` appointment to `startTime = 100`,
`endTime = 50` — a merged interval with `endTime ≤ startTime` — succeeds
instead of failing with a `ValidationError`. -/
theorem update_accepts_inverted_interval :
    (updateAppointmentService
        { appointments := [{ id := 0, patientId := "P1", doctorId := "D1",
                             startTime := 0, endTime := 30 }], nextId := 1 }
        0
        { startTime := some (some 100), endTime := some (some 50) }).1
      = .ok (some { id := 0, patientId := "P1", doctorId := "D1",
                    startTime := 100, endTime := 50 }) ∧
    (50 : DateMs) ≤ 100 := by decide

/-- C3 amended: create rejects any input whose interval has
`endTime ≤ startTime` with a `ValidationError`; update only rejects
unparseable time values — with parseable times it applies the patch
without re-validating the merged interval. -/
theorem interval_validation_amended :
    (∀ (s : Store) (i : AppointmentCreateInput) (st en : DateMs),
        i.startTime = some st → i.endTime = some en → en ≤ st →
        createAppointmentService s i
          = (.error (.validationError "Appointment end time must be after start time."), s)) ∧
    (∀ (s : Store) (id : Nat) (p : AppointmentUpdateInput) (st en : DateMs),
        p.startTime = some (some st) → p.endTime = some (some en) →
        updateAppointmentService s id p
          = (.ok (findByIdAndUpdate s id (applyPatch p)).1,
             (findByIdAndUpdate s id (applyPatch p)).2)) := by
  constructor
  · intro s i st en hst hen hle
    simp [createAppointmentService, hst, hen, hle]
  · intro s id p st en hst hen
    simp [updateAppointmentService, hst, hen]

/-- Witness for the amended C3: a concrete invalid-interval create fails,
and a concrete update with `endTime ≤ startTime` still goes through. -/
theorem interval_validation_amended_witness :
    (createAppointmentService emptyStore
        { patientId := "P1", doctorId := "D1",
          startTime := some 10, endTime := some 5 }
      = (.error (.validationError "Appointment end time must be after start time."),
         emptyStore)) ∧
    (updateAppointmentService
        { appointments := [{ id := 0, patientId := "P1", doctorId := "D1",
                             startTime := 0, endTime := 30 }], nextId := 1 }
        0
        { startTime := some (some 100), endTime := some (some 50) }
      = (.ok (findByIdAndUpdate
                { appointments := [{ id := 0, patientId := "P1", doctorId := "D1",
                                     startTime := 0, endTime := 30 }], nextId := 1 }
                0
                (applyPatch { startTime := some (some 100), endTime := some (some 50) })).1,
         (findByIdAndUpdate
                { appointments := [{ id := 0, patientId := "P1", doctorId := "D1",
                                     startTime := 0, endTime := 30 }], nextId := 1 }
                0
                (applyPatch { startTime := some (some 100), endTime := some (some 50) })).2)) :=
  ⟨interval_validation_amended.1 emptyStore _ 10 5 rfl rfl (by decide),
   interval_validation_amended.2 _ 0 _ 100 50 rfl rfl⟩

/-! ## C7 -/

/-- Counterexample to C7: invoked directly with a patch containing none of
the updatable fields, the core update does not reject — it succeeds and
returns the stored record unchanged. -/
theorem update_empty_patch_accepted :
    updateAppointmentService
        { appointments := [{ id := 0, patientId := "P1", doctorId := "D1",
                             startTime := 0, endTime := 30 }], nextId := 1 }
        0 {}
      = (.ok (some { id := 0, patientId := "P1", doctorId := "D1",
                     startTime := 0, endTime := 30 }),
         { appointments := [{ id := 0, patientId := "P1", doctorId := "D1",
                              startTime := 0, endTime := 30 }], nextId := 1 }) := by
  decide

/-- An empty patch leaves a document unchanged. -/
theorem applyPatch_empty (a : Appointment) : applyPatch {} a = a := by
  cases a; rfl

/-- C7 amended: the empty-patch rejection lives only in the upstream
`updateAppointmentSchema` (its nonempty refinement rejects `\x7b\x7d`); the core
update service, reached directly with an empty patch, succeeds and returns
the stored record — if any — with the store unchanged. -/
theorem update_empty_patch_amended :
    updateAppointmentSchemaHasField {} = false ∧
    ∀ (s : Store) (id : Nat),
      updateAppointmentService s id {}
        = (.ok (s.appointments.find? (fun a => a.id == id)), s) := by
  refine ⟨rfl, fun s id => ?_⟩
  have hmap : s.appointments.map
      (fun (b : Appointment) => if b.id == id then applyPatch {} b else b)
        = s.appointments :=
    List.map_id'' (fun b => by rw [applyPatch_empty]; split <;> rfl) _
  unfold updateAppointmentService findByIdAndUpdate
  cases hf : s.appointments.find? (fun a => a.id == id) with
  | none => simp
  | some a => simp [applyPatch_empty, hmap]

/-! ## C6 -/

/-- `findByIdAndUpdate` is idempotent for an update function that preserves
the id and is itself idempotent. -/
theorem findByIdAndUpdate_idem (s : Store) (id : Nat) (f : Appointment → Appointment)
    (hid : ∀ a, (f a).id = a.id) (hidem : ∀ a, f (f a) = f a) :
    findByIdAndUpdate (findByIdAndUpdate s id f).2 id f = findByIdAndUpdate s id f := by
  unfold findByIdAndUpdate
  cases hf : s.appointments.find? (fun a => a.id == id) with
  | none => simp [hf]
  | some a =>
    have hpa : (a.id == id) = true := by
      have h := List.find?_some hf
      simpa using h
    have hcomp : (fun b => ((if b.id == id then f b else b).id == id))
        = (fun b => b.id == id) := by
      funext b
      by_cases hb : (b.id == id) = true
      · simp [hb, hid]
      · simp [hb]
    have hfind : (s.appointments.map (fun b => if b.id == id then f b else b)).find?
        (fun b => b.id == id) = some (if a.id == id then f a else a) := by
      rw [List.find?_map]
      show ((s.appointments.find? (fun b => ((if b.id == id then f b else b).id == id))).map _) = _
      rw [hcomp, hf]
      rfl
    simp only [hf, hfind, hpa, if_true, Prod.mk.injEq]
    constructor
    · rw [hidem]
    · rw [List.map_map]
      congr 1
      apply List.map_congr_left
      intro b _
      by_cases hb : (b.id == id) = true
      · simp [Function.comp, hb, hid, hidem]
      · simp [Function.comp, hb]

/-- C6: for an existing id both shortcuts succeed; cancel always returns a
`cancelled` record and complete a `completed` one, whatever the previous
status; and each operation is idempotent — the second invocation returns
the same result and leaves the same store. -/
theorem cancel_complete_unconditional_idempotent :
    (∀ (s : Store) (id : Nat) (a : Appointment),
        (cancelAppointmentService s id).1 = some a → a.status = .cancelled) ∧
    (∀ (s : Store) (id : Nat) (a : Appointment),
        (completeAppointmentService s id).1 = some a → a.status = .completed) ∧
    (∀ (s : Store) (id : Nat), (∃ a ∈ s.appointments, a.id = id) →
        (cancelAppointmentService s id).1.isSome
          ∧ (completeAppointmentService s id).1.isSome) ∧
    (∀ (s : Store) (id : Nat),
        cancelAppointmentService (cancelAppointmentService s id).2 id
          = cancelAppointmentService s id) ∧
    (∀ (s : Store) (id : Nat),
        completeAppointmentService (completeAppointmentService s id).2 id
          = completeAppointmentService s id) := by
  have hfindSome : ∀ (s : Store) (id : Nat), (∃ a ∈ s.appointments, a.id = id) →
      (s.appointments.find? (fun a => a.id == id)).isSome := by
    intro s id ⟨a, ha, hid⟩
    rw [List.find?_isSome]
    exact ⟨a, ha, by simp [hid]⟩
  refine ⟨?_, ?_, ?_, ?_, ?_⟩
  · intro s id a h
    unfold cancelAppointmentService findByIdAndUpdate at h
    cases hf : s.appointments.find? (fun a => a.id == id) with
    | none => rw [hf] at h; exact absurd h (by simp)
    | some b => rw [hf] at h; cases Option.some.inj h; rfl
  · intro s id a h
    unfold completeAppointmentService findByIdAndUpdate at h
    cases hf : s.appointments.find? (fun a => a.id == id) with
    | none => rw [hf] at h; exact absurd h (by simp)
    | some b => rw [hf] at h; cases Option.some.inj h; rfl
  · intro s id hex
    have := hfindSome s id hex
    constructor
    · unfold cancelAppointmentService findByIdAndUpdate
      cases hf : s.appointments.find? (fun a => a.id == id) with
      | none => rw [hf] at this; exact absurd this (by simp)
      | some b => rfl
    · unfold completeAppointmentService findByIdAndUpdate
      cases hf : s.appointments.find? (fun a => a.id == id) with
      | none => rw [hf] at this; exact absurd this (by simp)
      | some b => rfl
  · intro s id
    exact findByIdAndUpdate_idem s id _ (fun a => rfl) (fun a => rfl)
  · intro s id
    exact findByIdAndUpdate_idem s id _ (fun a => rfl) (fun a => rfl)

/-- Fixture for the C6 witness: a store holding one completed appointment. -/
def apptCompleted : Appointment :=
  { id := 0, patientId := "P1", doctorId := "D1", startTime := 0, endTime := 30,
    status := .completed }

/-- Fixture store for the C6 witness. -/
def storeCompleted : Store := { appointments := [apptCompleted], nextId := 1 }

/-- Witness for C6: on the concrete completed appointment, both shortcuts
succeed, cancelling yields status `cancelled`, and cancelling twice equals
cancelling once. -/
theorem cancel_complete_unconditional_idempotent_witness :
    ((cancelAppointmentService storeCompleted 0).1.isSome
        ∧ (completeAppointmentService storeCompleted 0).1.isSome) ∧
    ({ apptCompleted with status := .cancelled } : Appointment).status = .cancelled ∧
    cancelAppointmentService (cancelAppointmentService storeCompleted 0).2 0
      = cancelAppointmentService storeCompleted 0 :=
  ⟨cancel_complete_unconditional_idempotent.2.2.1 storeCompleted 0
      ⟨apptCompleted, by decide, rfl⟩,
   cancel_complete_unconditional_idempotent.1 storeCompleted 0
      { apptCompleted with status := .cancelled } (by decide),
   cancel_complete_unconditional_idempotent.2.2.2.1 storeCompleted 0⟩

/-! ## C5 -/

/-- Counterexample to C5: with the filter `\x7bpatientId: ""\x7d` — the field is
present, so the claim's exact-match condition excludes the stored
appointment whose `patientId` is `"P1"` — the service nevertheless returns
that appointment, because `if (filter.patientId)` treats the empty string
as absent. -/
theorem list_ignores_empty_string_condition :
    claimMatches { patientId := some "" }
        { id := 0, patientId := "P1", doctorId := "D1", startTime := 0, endTime := 30 }
      = false ∧
    getAppointmentsService
        { appointments := [{ id := 0, patientId := "P1", doctorId := "D1",
                             startTime := 0, endTime := 30 }], nextId := 1 }
        { patientId := some "" }
      = [{ id := 0, patientId := "P1", doctorId := "D1", startTime := 0, endTime := 30 }] := by
  refine ⟨by decide, ?_⟩
  show (List.filter _ _).mergeSort leStart = _
  rw [show List.filter _ _
      = [{ id := 0, patientId := "P1", doctorId := "D1",
           startTime := 0, endTime := 30 }] from by decide]
  exact List.mergeSort_singleton _

/-- Pointwise agreement of the code's built Mongo query with the
truthiness-aware filter predicate. -/
theorem matchesQuery_buildQuery (f : AppointFilter) (a : Appointment) :
    matchesQuery (buildQuery f) a = truthyMatches f a := by
  obtain ⟨p, d, st, fr, t⟩ := f
  have hstr : ∀ (o : Option String) (x : String),
      (match (if truthyStr o then o else none : Option String) with
        | some v => x == v
        | none => true)
      = (if truthyStr o then x == o.getD "" else true) := by
    intro o x
    cases o with
    | none => rfl
    | some v =>
      by_cases hv : truthyStr (some v) = true
      · rw [if_pos hv, if_pos hv]
        rfl
      · rw [if_neg hv, if_neg hv]
  simp only [matchesQuery, buildQuery, truthyMatches]
  rw [hstr p a.patientId, hstr d a.doctorId, hstr st (statusToString a.status)]
  rcases fr with _ | (_ | frd) <;> rcases t with _ | (_ | td) <;> rfl

theorem leStart_trans (a b c : Appointment) :
    leStart a b → leStart b c → leStart a c := by
  simp only [leStart, decide_eq_true_eq]
  exact le_trans

theorem leStart_total (a b : Appointment) : leStart a b || leStart b a := by
  simp only [leStart, Bool.or_eq_true, decide_eq_true_eq]
  exact le_total a.startTime b.startTime

/-- C5 amended: the list operation returns exactly the stored appointments
satisfying the conjunction of the conditions that are present *and truthy*
(a present-but-empty string field and a present-but-invalid date bound are
ignored), sorted ascending by `startTime`; with no filter it returns all
records; an empty result is the empty sequence, not an error. -/
theorem list_filter_amended (s : Store) (f : AppointFilter) :
    ((getAppointmentsService s f).Perm (s.appointments.filter (truthyMatches f))) ∧
    ((getAppointmentsService s f).Pairwise (fun a b => a.startTime ≤ b.startTime)) ∧
    (f = {} → (getAppointmentsService s f).Perm s.appointments) := by
  have hfil : s.appointments.filter (matchesQuery (buildQuery f))
      = s.appointments.filter (truthyMatches f) :=
    List.filter_congr (fun a _ => matchesQuery_buildQuery f a)
  refine ⟨?_, ?_, ?_⟩
  · unfold getAppointmentsService
    rw [hfil]
    exact List.mergeSort_perm _ _
  · unfold getAppointmentsService
    exact (List.sorted_mergeSort leStart_trans leStart_total _).imp
      (fun h => by simpa [leStart] using h)
  · intro hf
    subst hf
    unfold getAppointmentsService
    have hall : s.appointments.filter (matchesQuery (buildQuery {})) = s.appointments := by
      rw [hfil]
      exact List.filter_eq_self.mpr (fun a _ => by rfl)
    rw [hall]
    exact List.mergeSort_perm _ _

/-- Witness for C5's amended claim at the empty filter on a concrete store. -/
theorem list_filter_amended_witness :
    ((getAppointmentsService storeCompleted {}).Perm
        (storeCompleted.appointments.filter (truthyMatches {}))) ∧
    ((getAppointmentsService storeCompleted {}).Pairwise
        (fun a b => a.startTime ≤ b.startTime)) ∧
    ((getAppointmentsService storeCompleted {}).Perm storeCompleted.appointments) :=
  ⟨(list_filter_amended storeCompleted {}).1,
   (list_filter_amended storeCompleted {}).2.1,
   (list_filter_amended storeCompleted {}).2.2 rfl⟩

/-! ## C9 -/

/-- Counterexample to C9: in the interleaving of two concurrent creates
where both conflict checks read the store before either insert (nothing in
the code prevents it — no lock or transaction spans the check and the
insert), two valid mutually-overlapping same-doctor requests BOTH succeed,
and the resulting store violates the no-overlap invariant. -/
theorem race_both_creates_succeed :
    (raceBothCheckFirst emptyStore
        { patientId := "P1", doctorId := "D1", startTime := some 0, endTime := some 30 }
        { patientId := "P2", doctorId := "D1", startTime := some 15, endTime := some 45 }
        0 30 15 45).1 = (true, true) ∧
    ¬ NoOverlap (raceBothCheckFirst emptyStore
        { patientId := "P1", doctorId := "D1", startTime := some 0, endTime := some 30 }
        { patientId := "P2", doctorId := "D1", startTime := some 15, endTime := some 45 }
        0 30 15 45).2 := by
  decide

/-- C9 amended: at most one of two overlapping creates succeeds only under
sequential execution — when one create completes before the other starts,
the second fails with `SchedulingConflict`.  (Concurrently, the
check-then-act interleaving lets both succeed.) -/
theorem sequential_creates_conflict (s : Store) (i1 i2 : AppointmentCreateInput)
    (a1 : Appointment) (st2 en2 : DateMs)
    (h1 : (createAppointmentService s i1).1 = .ok a1)
    (hd : i2.doctorId = i1.doctorId)
    (hst : i2.startTime = some st2) (hen : i2.endTime = some en2)
    (hv : st2 < en2)
    (hov : a1.startTime < en2 ∧ st2 < a1.endTime) :
    (createAppointmentService (createAppointmentService s i1).2 i2).1
      = .error (.conflictError "Appointment has time conflict.") := by
  obtain ⟨st1, en1, -, -, -, -, ha1, hs'⟩ := createAppointmentService_ok s i1 a1 h1
  have hle : ¬ en2 ≤ st2 := not_le.mpr hv
  have hc : conflictExists (createAppointmentService s i1).2 i2.doctorId st2 en2 = true := by
    rw [conflictExists_iff]
    refine ⟨a1, ?_, ?_, ?_, hov.1, hov.2⟩
    · rw [hs']
      exact List.mem_append_right _ (List.mem_singleton.mpr rfl)
    · rw [hd, ha1]; rfl
    · rw [ha1]; simp [newAppointment]
  rw [hs'] at hc ⊢
  simp [createAppointmentService, hst, hen, hle, hc]

/-- Witness for the amended C9: creating `[0, 30)` then `[15, 45)` for the
same doctor sequentially makes the second fail with the conflict error. -/
theorem sequential_creates_conflict_witness :
    (createAppointmentService
        (createAppointmentService emptyStore
          { patientId := "P1", doctorId := "D1",
            startTime := some 0, endTime := some 30 }).2
        { patientId := "P2", doctorId := "D1",
          startTime := some 15, endTime := some 45 }).1
      = .error (.conflictError "Appointment has time conflict.") :=
  sequential_creates_conflict emptyStore
    { patientId := "P1", doctorId := "D1", startTime := some 0, endTime := some 30 }
    { patientId := "P2", doctorId := "D1", startTime := some 15, endTime := some 45 }
    (newAppointment emptyStore
      { patientId := "P1", doctorId := "D1", startTime := some 0, endTime := some 30 }
      0 30)
    15 45 (by decide) rfl rfl rfl (by decide) (by decide)

/-! ## C10 -/

/-- C10: the HTTP list handler parses `req.params` (not the query string);
the list route binds no path parameters, so `params` is empty, the
all-optional schema accepts it, the service filter is empty, and the
response is all stored appointments sorted by `startTime` — whatever
`patientId` / `doctorId` / `status` / `from` / `to` the query string
carries. -/
theorem list_handler_ignores_query (parseDate : String → Option DateMs)
    (s : Store) (q : List (String × String)) :
    getAppointmentsController parseDate s { params := [], query := q }
      = .ok ((s.appointments.mergeSort leStart).length,
             s.appointments.mergeSort leStart) := by
  have hall : getAppointmentsService s ({} : AppointFilter)
      = s.appointments.mergeSort leStart := by
    unfold getAppointmentsService
    have hp : ∀ a ∈ s.appointments,
        matchesQuery (buildQuery ({} : AppointFilter)) a = true := fun a _ => rfl
    rw [List.filter_eq_self.mpr hp]
  show Except.ok ((getAppointmentsService s _).length, getAppointmentsService s _) = _
  rw [hall]

/-! ## C1 -/

/-- Counterexample to C1: update re-checks neither the interval nor the
overlap, so the sequence create `[0, 30)`, create `[100, 130)` (same
doctor), then update the second appointment's times to `[0, 30)` reaches a
store with two scheduled same-doctor appointments occupying the same slot. -/
theorem update_breaks_no_overlap :
    ¬ NoOverlap (runOps
      [.create { patientId := "P1", doctorId := "D1",
                 startTime := some 0, endTime := some 30 },
       .create { patientId := "P2", doctorId := "D1",
                 startTime := some 100, endTime := some 130 },
       .update 1 { startTime := some (some 0), endTime := some (some 30) }]) := by
  decide

/-- A document rejected by the conflict query that matches on doctor and
status cannot overlap the queried interval. -/
theorem overlapsActive_false (d : String) (st en : DateMs) (x : Appointment)
    (hx : overlapsActive d st en x = false) (hd : x.doctorId = d)
    (hs : x.status ≠ .cancelled) : ¬ (x.startTime < en ∧ st < x.endTime) := by
  rintro ⟨h1, h2⟩
  rw [overlapsActive, hd] at hx
  simp [h1, h2, hs] at hx

/-- A successful create preserves the no-overlap invariant: the inserted
record was checked against every stored document, and a failed create
leaves the store unchanged. -/
theorem create_preserves_noOverlap (s : Store) (i : AppointmentCreateInput)
    (h : NoOverlap s) : NoOverlap (createAppointmentService s i).2 := by
  cases hst : i.startTime with
  | none => simpa [createAppointmentService, hst] using h
  | some st =>
    cases hen : i.endTime with
    | none => simpa [createAppointmentService, hst, hen] using h
    | some en =>
      by_cases hle : en ≤ st
      · simpa [createAppointmentService, hst, hen, hle] using h
      · by_cases hc : conflictExists s i.doctorId st en
        · simpa [createAppointmentService, hst, hen, hle, hc] using h
        · have hs2 : (createAppointmentService s i).2
              = insertAppointment s (newAppointment s i st en) := by
            simp [createAppointmentService, hst, hen, hle, hc]
          rw [hs2]
          have hnone : ∀ x ∈ s.appointments,
              overlapsActive i.doctorId st en x = false := by
            have hfind : s.appointments.find? (overlapsActive i.doctorId st en)
                = none := by
              apply Option.not_isSome_iff_eq_none.mp
              simpa [conflictExists] using hc
            intro x hx
            simpa using List.find?_eq_none.mp hfind x hx
          intro a ha b hb hdoc hac hbc hne hov
          rcases List.mem_append.mp ha with haS | haA
          · rcases List.mem_append.mp hb with hbS | hbA
            · exact h a haS b hbS hdoc hac hbc hne hov
            · have hbA' : b = newAppointment s i st en := List.mem_singleton.mp hbA
              have hdA : a.doctorId = i.doctorId := by
                rw [hdoc, hbA']; rfl
              refine overlapsActive_false i.doctorId st en a
                (hnone a haS) hdA hac ⟨?_, ?_⟩
              · simpa [hbA', newAppointment] using hov.1
              · simpa [hbA', newAppointment] using hov.2
          · rcases List.mem_append.mp hb with hbS | hbA
            · have haA' : a = newAppointment s i st en := List.mem_singleton.mp haA
              have hdB : b.doctorId = i.doctorId := by
                rw [← hdoc, haA']; rfl
              refine overlapsActive_false i.doctorId st en b
                (hnone b hbS) hdB hbc ⟨?_, ?_⟩
              · simpa [haA', newAppointment] using hov.2
              · simpa [haA', newAppointment] using hov.1
            · have haA' : a = newAppointment s i st en := List.mem_singleton.mp haA
              have hbA' : b = newAppointment s i st en := List.mem_singleton.mp hbA
              exact hne (by rw [haA', hbA'])

/-- Cancel preserves the no-overlap invariant: it only moves one document
into the `cancelled` status, which the invariant quantifies away. -/
theorem cancel_preserves_noOverlap (s : Store) (id : Nat) (h : NoOverlap s) :
    NoOverlap (cancelAppointmentService s id).2 := by
  have happ : (cancelAppointmentService s id).2.appointments = s.appointments
      ∨ (cancelAppointmentService s id).2.appointments
        = s.appointments.map (fun b =>
            if b.id == id then { b with status := AppointmentStatus.cancelled } else b) := by
    unfold cancelAppointmentService findByIdAndUpdate
    cases hf : s.appointments.find? (fun a => a.id == id) with
    | none => exact Or.inl rfl
    | some a0 => exact Or.inr rfl
  rcases happ with heq | heq
  · intro a ha b hb hdoc hac hbc hne hov
    rw [heq] at ha hb
    exact h a ha b hb hdoc hac hbc hne hov
  · intro a ha b hb hdoc hac hbc hne hov
    rw [heq] at ha hb
    rcases List.mem_map.mp ha with ⟨a', ha', hae⟩
    rcases List.mem_map.mp hb with ⟨b', hb', hbe⟩
    by_cases hida : (a'.id == id) = true
    · have haa : a = { a' with status := AppointmentStatus.cancelled } := by
        rw [← hae]; simp [hida]
      rw [haa] at hac
      exact absurd rfl hac
    · have haa : a = a' := by
        rw [← hae]; simp [hida]
      by_cases hidb : (b'.id == id) = true
      · have hbb : b = { b' with status := AppointmentStatus.cancelled } := by
          rw [← hbe]; simp [hidb]
        rw [hbb] at hbc
        exact absurd rfl hbc
      · have hbb : b = b' := by
          rw [← hbe]; simp [hidb]
        rw [haa] at hdoc hac hne hov
        rw [hbb] at hdoc hbc hne hov
        exact h a' ha' b' hb' hdoc hac hbc hne hov

/-- Invariant propagation along a create/cancel operation sequence. -/
theorem noOverlap_runOps_aux :
    ∀ (ops : List Op) (s0 : Store), (∀ op ∈ ops, op.isCreateOrCancel) →
      NoOverlap s0 → NoOverlap (ops.foldl applyOp s0)
  | [], _, _, h0 => h0
  | op :: rest, s0, h, h0 => by
    have hop : op.isCreateOrCancel := h op (List.mem_cons_self op rest)
    have hrest : ∀ o ∈ rest, o.isCreateOrCancel :=
      fun o ho => h o (List.mem_cons_of_mem _ ho)
    have h1 : NoOverlap (applyOp s0 op) := by
      cases op with
      | create i => exact create_preserves_noOverlap s0 i h0
      | cancel id => exact cancel_preserves_noOverlap s0 id h0
      | update id u => exact absurd hop (by simp [Op.isCreateOrCancel])
      | complete id => exact absurd hop (by simp [Op.isCreateOrCancel])
    exact noOverlap_runOps_aux rest (applyOp s0 op) hrest h1

/-- C1 amended: starting from the empty store, every sequence of create and
cancel operations keeps the invariant — for each doctor no two non-cancelled
appointments with distinct ids overlap.  (Sequences containing update — or a
complete that revives a cancelled appointment next to a later booking — can
break it, as the counterexample shows for update.) -/
theorem no_overlap_create_cancel (ops : List Op)
    (h : ∀ op ∈ ops, op.isCreateOrCancel) : NoOverlap (runOps ops) :=
  noOverlap_runOps_aux ops emptyStore h
    (fun a ha => absurd ha (List.not_mem_nil a))

/-- Witness for the amended C1: create `[0, 30)`, cancel it, re-book the
overlapping `[15, 45)` — the invariant holds at the end. -/
theorem no_overlap_create_cancel_witness :
    (∀ op ∈ ([.create { patientId := "P1", doctorId := "D1",
                        startTime := some 0, endTime := some 30 },
              .cancel 0,
              .create { patientId := "P2", doctorId := "D1",
                        startTime := some 15, endTime := some 45 }] : List Op),
        op.isCreateOrCancel) ∧
    NoOverlap (runOps
      [.create { patientId := "P1", doctorId := "D1",
                 startTime := some 0, endTime := some 30 },
       .cancel 0,
       .create { patientId := "P2", doctorId := "D1",
                 startTime := some 15, endTime := some 45 }]) :=
  ⟨by decide, no_overlap_create_cancel _ (by decide)⟩

end DoctorBooking
